import Mathlib

/-!
Verification development for the docchat-docling repository.

The Python sources are shallowly embedded: text is modelled as `List Char`
(`Str`) where character-level operations matter (the verification agent's
parser and formatter) and as `String` elsewhere; Python dictionaries are
modelled as association lists with Python's insertion-order update
semantics; external collaborators (the language model, the document
converter, the hash function) are parameters.
-/

/-- Python strings, at character granularity. -/
abbrev Str := List Char

/-- Characters stripped by Python's `str.strip()` (whitespace). -/
def wsChar (c : Char) : Bool :=
  c == ' ' || c == '\t' || c == '\n' || c == '\r' || c == '\x0b' || c == '\x0c'

/-- `str.strip()` from the right end only (helper). -/
def pyStripRight (cs : Str) : Str :=
  (cs.reverse.dropWhile wsChar).reverse

/-- Python `str.strip()`: remove whitespace from both ends. -/
def pyStrip (cs : Str) : Str :=
  pyStripRight (cs.dropWhile wsChar)

/-- Python `str.strip(ch)` for a single character argument. -/
def pyStripChar (ch : Char) (cs : Str) : Str :=
  (((cs.dropWhile (fun c => c == ch)).reverse).dropWhile (fun c => c == ch)).reverse

/-- Python `str.capitalize()`: first character upper-cased, the rest lower-cased. -/
def pyCapitalize : Str → Str
  | [] => []
  | c :: rest => c.toUpper :: rest.map Char.toLower

/-- Python `str.upper()`. -/
def pyUpper (cs : Str) : Str := cs.map Char.toUpper

/-- Python `pat in s` substring test. -/
def pyContains (pat : Str) : Str → Bool
  | [] => pat.isEmpty
  | c :: rest => pat.isPrefixOf (c :: rest) || pyContains pat rest

/-- Python `str.split(sep)` for a single-character separator
(always returns at least one piece). -/
def pySplit (sep : Char) : Str → List Str
  | [] => [[]]
  | c :: rest =>
    match pySplit sep rest with
    | [] => [[]]
    | cur :: parts => if c == sep then [] :: cur :: parts else (c :: cur) :: parts

/-- The piece of `line` before the first `sep`, as in `line.split(sep, 1)[0]`. -/
def beforeSep (sep : Char) (cs : Str) : Str :=
  cs.takeWhile (fun c => c != sep)

/-- The piece of `line` after the first `sep`, as in `line.split(sep, 1)[1]`
(meaningful only when `sep` occurs). -/
def afterSep (sep : Char) (cs : Str) : Str :=
  (cs.dropWhile (fun c => c != sep)).tail

/-- Python `sep.join(items)` on character lists. -/
def pyJoin (sep : Str) : List Str → Str
  | [] => []
  | [x] => x
  | x :: xs => x ++ sep ++ pyJoin sep xs

/-- Python `sep.join(items)` on `String`s. -/
def pyJoinStr (sep : String) : List String → String
  | [] => ""
  | [x] => x
  | x :: xs => x ++ sep ++ pyJoinStr sep xs

/-- `str.strip()` on `String`. -/
def pyStripS (s : String) : String := String.mk (pyStrip s.toList)

/-- `str.upper()` on `String`. -/
def pyUpperS (s : String) : String := String.mk (pyUpper s.toList)

/-- `pat in s` on `String`. -/
def containsS (s pat : String) : Bool := pyContains pat.toList s.toList

/-!  Verification agent (src/agents/verification_agent.py).

A verification dictionary is an association list with Python dict update
semantics.  Values are either strings or lists of strings, exactly the two
shapes `parse_verification_response` produces. -/

/-- A Python dict value as used by the verification agent. -/
inductive PVal where
  | pstr (s : Str)
  | plist (l : List Str)
deriving DecidableEq

/-- A verification dictionary (Python dict, insertion ordered). -/
abbrev VDict := List (Str × PVal)

/-- Python dict assignment `d[k] = v`: replace in place or append. -/
def dictSet (d : VDict) (k : Str) (v : PVal) : VDict :=
  match d with
  | [] => [(k, v)]
  | (k0, v0) :: rest => if k0 = k then (k0, v) :: rest else (k0, v0) :: dictSet rest k v

/-- Python `k in d`. -/
def dictHasKey (d : VDict) (k : Str) : Bool :=
  d.any (fun e => e.1 == k)

/-- Python `d.get(k, dflt)`. -/
def dictGet (d : VDict) (k : Str) (dflt : PVal) : PVal :=
  match d.find? (fun e => e.1 == k) with
  | some e => e.2
  | none => dflt

/-- Read a `PVal` as a string.  In the program the string-valued keys
(`Supported`, `Relevant`, `Additional Details`) only ever hold strings,
so the `plist` case is unreachable there. -/
def pvalStr : PVal → Str
  | PVal.pstr s => s
  | PVal.plist _ => []

/-- Read a `PVal` as a list.  In the program the list-valued keys
(`Unsupported Claims`, `Contradictions`) only ever hold lists. -/
def pvalList : PVal → List Str
  | PVal.plist l => l
  | PVal.pstr _ => []

/-- Dict key `"Supported"`. -/
def kSupported : Str := "Supported".toList

/-- Dict key `"Unsupported Claims"` (the canonical form used by
`format_verification_report` and by the defaulting loop). -/
def kUnsupportedClaims : Str := "Unsupported Claims".toList

/-- Dict key `"Unsupported claims"`, the form `key.capitalize()` actually
produces in the line parser. -/
def kUnsupportedClaimsCap : Str := "Unsupported claims".toList

/-- Dict key `"Contradictions"`. -/
def kContradictions : Str := "Contradictions".toList

/-- Dict key `"Relevant"`. -/
def kRelevant : Str := "Relevant".toList

/-- Dict key `"Additional Details"` (canonical form). -/
def kAdditionalDetails : Str := "Additional Details".toList

/-- Dict key `"Additional details"`, the form `key.capitalize()` produces. -/
def kAdditionalDetailsCap : Str := "Additional details".toList

/-- The string `"NO"`. -/
def noStr : Str := "NO".toList

/-- Bracketed-list parsing inside `parse_verification_response`:
`value[1:-1].split(',')`, keep items whose `strip()` is nonempty, then
strip whitespace, double quotes and single quotes from each item. -/
def parseBracketList (value : Str) : List Str :=
  if value.headI == '[' && value.getLastI == ']' && !value.isEmpty then
    let items := pySplit ',' ((value.drop 1).dropLast)
    (items.filter (fun it => !(pyStrip it).isEmpty)).map
      (fun it => pyStripChar '\'' (pyStripChar '"' (pyStrip it)))
  else []

/-- One iteration of the `for line in lines` loop of
`parse_verification_response`. -/
def parseLine (d : VDict) (line : Str) : VDict :=
  if pyContains ":".toList line then
    let key := pyCapitalize (pyStrip (beforeSep ':' line))
    let value := pyStrip (afterSep ':' line)
    if key = kSupported ∨ key = kUnsupportedClaimsCap ∨ key = kContradictions
        ∨ key = kRelevant ∨ key = kAdditionalDetailsCap then
      if key = kUnsupportedClaimsCap ∨ key = kContradictions then
        dictSet d key (PVal.plist (parseBracketList value))
      else if key = kAdditionalDetailsCap then
        dictSet d key (PVal.pstr value)
      else
        dictSet d key (PVal.pstr (pyUpper value))
    else d
  else d

/-- The `Ensure all keys are present` loop of `parse_verification_response`:
note it checks the canonical (title-case) keys, which differ from the
`capitalize()`d keys the line parser stores for two of the fields. -/
def ensureDefaults (d : VDict) : VDict :=
  let d1 := if dictHasKey d kSupported then d else dictSet d kSupported (PVal.pstr noStr)
  let d2 := if dictHasKey d1 kUnsupportedClaims then d1 else
    dictSet d1 kUnsupportedClaims (PVal.plist [])
  let d3 := if dictHasKey d2 kContradictions then d2 else
    dictSet d2 kContradictions (PVal.plist [])
  let d4 := if dictHasKey d3 kRelevant then d3 else dictSet d3 kRelevant (PVal.pstr noStr)
  if dictHasKey d4 kAdditionalDetails then d4 else
    dictSet d4 kAdditionalDetails (PVal.pstr [])

/-- `parse_verification_response`: line-oriented parse of the model's
response.  The function's `try`/`except` cannot fire (no statement in the
body raises), so the embedding is total. -/
def parseVerificationResponse (responseText : Str) : VDict :=
  ensureDefaults ((pySplit '\n' responseText).foldl parseLine [])

/-- The `Supported` field as `format_verification_report` reads it. -/
def reportSupported (d : VDict) : Str := pvalStr (dictGet d kSupported (PVal.pstr noStr))

/-- The `Unsupported Claims` field as the formatter reads it. -/
def reportUnsupportedClaims (d : VDict) : List Str :=
  pvalList (dictGet d kUnsupportedClaims (PVal.plist []))

/-- The `Contradictions` field as the formatter reads it. -/
def reportContradictions (d : VDict) : List Str :=
  pvalList (dictGet d kContradictions (PVal.plist []))

/-- The `Relevant` field as the formatter reads it. -/
def reportRelevant (d : VDict) : Str := pvalStr (dictGet d kRelevant (PVal.pstr noStr))

/-- The `Additional Details` field as the formatter reads it. -/
def reportAdditionalDetails (d : VDict) : Str :=
  pvalStr (dictGet d kAdditionalDetails (PVal.pstr []))

/-- `format_verification_report`: renders the verdict dictionary with
markdown-bold field names. -/
def formatVerificationReport (d : VDict) : Str :=
  let supported := reportSupported d
  let unsupportedClaims := reportUnsupportedClaims d
  let contradictions := reportContradictions d
  let relevant := reportRelevant d
  let additionalDetails := reportAdditionalDetails d
  ("**Supported:** ".toList ++ supported ++ "\n".toList)
  ++ (if !unsupportedClaims.isEmpty then
        "**Unsupported Claims:** ".toList ++ pyJoin ", ".toList unsupportedClaims ++ "\n".toList
      else "**Unsupported Claims:** None\n".toList)
  ++ (if !contradictions.isEmpty then
        "**Contradictions:** ".toList ++ pyJoin ", ".toList contradictions ++ "\n".toList
      else "**Contradictions:** None\n".toList)
  ++ ("**Relevant:** ".toList ++ relevant ++ "\n".toList)
  ++ (if !additionalDetails.isEmpty then
        "**Additional Details:** ".toList ++ additionalDetails ++ "\n".toList
      else "**Additional Details:** None\n".toList)

/-- The fail-closed default verdict dictionaries built inline in
`VerificationAgent.check` (model error / empty response), parameterised by
the `Additional Details` note. -/
def defaultVerdictDict (note : Str) : VDict :=
  [(kSupported, PVal.pstr noStr), (kUnsupportedClaims, PVal.plist []),
   (kContradictions, PVal.plist []), (kRelevant, PVal.pstr noStr),
   (kAdditionalDetails, PVal.pstr note)]

/-- `VerificationAgent.check` from the raw model response to the formatted
report: sanitize, default on empty, otherwise parse, then format. -/
def verificationCheckReport (rawResponse : Str) : Str :=
  let sanitized := pyStrip rawResponse
  if sanitized.isEmpty then
    formatVerificationReport (defaultVerdictDict "Empty response from the model.".toList)
  else
    formatVerificationReport (parseVerificationResponse sanitized)

/-!  Workflow controller (src/agents/workflow.py). -/

/-- `AgentWorkflow._decide_next_step`: substring test on the formatted
verification report. -/
def decideNextStep (verificationReport : Str) : String :=
  if pyContains "Supported: NO".toList verificationReport
      || pyContains "Relevant: NO".toList verificationReport
  then "re_research" else "end"

/-- The `research -> verify -> (research | END)` cycle of the compiled
graph, run from iteration `start` with at most `fuel` research steps.
`draft` is the research collaborator's answer per iteration and
`verifierResponse` the verification model's raw response per iteration.
The source graph itself carries no iteration bound; the `fuel` argument
expresses the bound the claim asserts. -/
def researchVerifyLoop (draft : Nat → String) (verifierResponse : Nat → Str) :
    Nat → Nat → Option (String × Str)
  | 0, _ => none
  | fuel + 1, i =>
    let report := verificationCheckReport (verifierResponse i)
    if decideNextStep report = "end" then some (draft i, report)
    else researchVerifyLoop draft verifierResponse fuel (i + 1)

/-!  Shared chunk/document record (langchain `Document` as the repository
uses it): `page_content` plus the `source` and `page` metadata entries.
`metaSource = none` models a missing `source` key (`metadata.get("source",
"Unknown")` then defaults), `metaPage = none` models a missing or `None`
`page` (`metadata.get("page")`). -/

/-- A document chunk. -/
structure Doc where
  pageContent : String
  metaSource : Option String
  metaPage : Option Int
deriving DecidableEq

/-!  Relevance checker (src/agents/relevance_checker.py). -/

/-- `RelevanceChecker.check`.  The classification collaborator is a
function of the question and of the concatenated top-k chunk text (the
two values interpolated into the classification prompt); an `error`
result models an exception during model inference.  The second component
counts classification calls issued. -/
def relevanceCheck (question : String) (retrieved : List Doc) (k : Nat)
    (classify : String → String → Except Unit String) : String × Nat :=
  if retrieved.isEmpty then ("NO_MATCH", 0)
  else
    let documentContent := pyJoinStr "\n\n" ((retrieved.take k).map (fun d => d.pageContent))
    match classify question documentContent with
    | Except.error _ => ("NO_MATCH", 1)
    | Except.ok resp =>
      let r := pyUpperS (pyStripS resp)
      (if containsS r "CAN_ANSWER" then "CAN_ANSWER"
       else if containsS r "PARTIAL" then "PARTIAL"
       else if containsS r "NO_MATCH" then "NO_MATCH"
       else "PARTIAL", 1)

/-!  Research agent (src/agents/research_agent.py). -/

/-- Python truthiness of the `page` metadata value (`if page:`):
false for a missing/`None` page and for the integer `0`. -/
def pyTruthyPage : Option Int → Bool
  | none => false
  | some n => n != 0

/-- Python `str(...)` of the page value (only reached when truthy). -/
def pageStr : Option Int → String
  | some n => toString n
  | none => "None"

/-- One entry of the `sources` list built by
`ResearchAgent._build_context_with_sources`. -/
structure SourceRec where
  index : Nat
  source : String
  page : Option Int
deriving DecidableEq

/-- One iteration of the `for i, doc in enumerate(documents)` loop of
`_build_context_with_sources`: the context part and the sources entry for
document `d` at zero-based position `i`. -/
def researchEntry (d : Doc) (i : Nat) : String × SourceRec :=
  let source := d.metaSource.getD "Unknown"
  let page := d.metaPage
  let entry :=
    if pyTruthyPage page then
      ("[Source " ++ toString (i + 1) ++ ": " ++ source ++ ", Page " ++ pageStr page ++ "]",
       { index := i + 1, source := source, page := page })
    else
      ("[Source " ++ toString (i + 1) ++ ": " ++ source ++ "]",
       { index := i + 1, source := source, page := none })
  (entry.1 ++ "\n" ++ d.pageContent, entry.2)

/-- The full enumeration loop of `_build_context_with_sources`, started at
index `i`. -/
def buildEntries : List Doc → Nat → List (String × SourceRec)
  | [], _ => []
  | d :: rest, i => researchEntry d i :: buildEntries rest (i + 1)

/-- The `sources` list returned by `_build_context_with_sources`. -/
def researchSources (docs : List Doc) : List SourceRec :=
  (buildEntries docs 0).map (fun e => e.2)

/-- The `context_parts` list of `_build_context_with_sources`. -/
def contextParts (docs : List Doc) : List String :=
  (buildEntries docs 0).map (fun e => e.1)

/-- `_build_context_with_sources`: the joined prompt context and the
parallel sources list. -/
def buildContextWithSources (docs : List Doc) : String × List SourceRec :=
  (pyJoinStr "\n\n" (contextParts docs), researchSources docs)

/-!  App-side source display (src/app.py, process_question). -/

/-- The `for s in sources` deduplication loop of `process_question`,
carrying the `seen` set of `(source, page)` keys. -/
def dedupSourcesLoop : List SourceRec → List (String × Option Int) → List SourceRec
  | [], _ => []
  | s :: rest, seen =>
    if (s.source, s.page) ∈ seen then dedupSourcesLoop rest seen
    else s :: dedupSourcesLoop rest ((s.source, s.page) :: seen)

/-- `unique_sources` as computed in `process_question`. -/
def dedupSources (sources : List SourceRec) : List SourceRec :=
  dedupSourcesLoop sources []

/-- One `<li>` item of the final source display in `process_question`:
again gated on Python truthiness of `s["page"]`. -/
def formatSourceItem (s : SourceRec) : String :=
  if pyTruthyPage s.page then
    "<li>" ++ s.source ++ " — Page " ++ pageStr s.page ++ "</li>"
  else
    "<li>" ++ s.source ++ "</li>"

/-!  Document processor (src/document_processor/file_handler.py).

`DocumentProcessor.process` after `validate_files`: per file, hash the
raw bytes, consult the chunk cache, else convert and cache, then
deduplicate chunks across files by content hash.  The hash function `h`,
and the Docling conversion `pf` (what `_process_file` would return for a
file), are parameters.  A cache entry is `stored` when `_is_cache_valid`
holds and `_load_from_cache` succeeds, `corrupt` when it is valid but
unpickling raises, and `missing` when absent or expired. -/

/-- An uploaded file: its name and raw content bytes. -/
structure PFile where
  name : String
  content : String
deriving DecidableEq

/-- State of one cache path. -/
inductive CacheEntry where
  | missing
  | corrupt
  | stored (chunks : List Doc)
deriving DecidableEq

/-- The inner `for chunk in chunks` deduplication loop of `process`:
threads `seen_hashes` and `all_chunks`. -/
def processAddChunks (h : String → String) :
    List Doc → List String → List Doc → List String × List Doc
  | [], seen, acc => (seen, acc)
  | c :: rest, seen, acc =>
    let chunkHash := h c.pageContent
    if chunkHash ∈ seen then processAddChunks h rest seen acc
    else processAddChunks h rest (chunkHash :: seen) (acc ++ [c])

/-- The `for file in files` loop of `process`.  The per-file
`try`/`except ... continue` makes a corrupt cache load skip the file;
a missing entry converts the file and saves the result. -/
def processFilesLoop (h : String → String) (pf : PFile → List Doc) :
    List PFile → (String → CacheEntry) → List String → List Doc → List Doc
  | [], _, _, acc => acc
  | f :: rest, cache, seen, acc =>
    let path := h f.content
    match cache path with
    | CacheEntry.stored chunks =>
      let sa := processAddChunks h chunks seen acc
      processFilesLoop h pf rest cache sa.1 sa.2
    | CacheEntry.corrupt =>
      processFilesLoop h pf rest cache seen acc
    | CacheEntry.missing =>
      let chunks := pf f
      let cache2 := fun p => if p = path then CacheEntry.stored chunks else cache p
      let sa := processAddChunks h chunks seen acc
      processFilesLoop h pf rest cache2 sa.1 sa.2

/-- `DocumentProcessor.process` (after file-size validation). -/
def processFiles (h : String → String) (pf : PFile → List Doc)
    (cache : String → CacheEntry) (files : List PFile) : List Doc :=
  processFilesLoop h pf files cache [] []

/-!  Retriever builder (src/retriever/builder.py). -/

/-- `EMBEDDING_BATCH_SIZE`. -/
def embeddingBatchSize : Nat := 500

/-- Number of elements of Python `range(start, stop, step)` for positive
`step`. -/
def pyRangeCount (start stop step : Nat) : Nat := (stop - start + step - 1) / step

/-- Python `range(start, stop, step)` for positive `step`. -/
def pyRange (start stop step : Nat) : List Nat :=
  List.range' start (pyRangeCount start stop step) step

/-- The successive document batches embedded on an index-cache miss in
`build_hybrid_retriever`: `docs[:500]` via `Chroma.from_documents`, then
`docs[i:i+500]` for `i in range(500, len(docs), 500)` via
`add_documents`. -/
def chromaBatches (docs : List Doc) : List (List Doc) :=
  docs.take embeddingBatchSize ::
    (pyRange embeddingBatchSize docs.length embeddingBatchSize).map
      (fun i => (docs.drop i).take embeddingBatchSize)

/-- The batches actually embedded by `build_hybrid_retriever`: none when
the persisted vector store for the chunk-set hash exists, otherwise the
sequential `chromaBatches`. -/
def embeddedBatches (cacheExists : Bool) (docs : List Doc) : List (List Doc) :=
  if cacheExists then [] else chromaBatches docs

/-!  Concrete instances used by counterexamples and witnesses. -/

/-- A raw verifier response whose verdict is not-supported and not-relevant. -/
def c1RawResponse : Str := "Supported: NO\nRelevant: NO".toList

/-- A raw verifier response whose verdict is not-supported, and whose
`Contradictions` item re-introduces the literal text `Supported: NO` into
the formatted report. -/
def c2RawResponse : Str :=
  "Supported: NO\nRelevant: NO\nContradictions: [Supported: NO]".toList

/-- An uploaded file. -/
def c4File : PFile := { name := "report.pdf", content := "PDFBYTES" }

/-- The chunk list Docling conversion would produce for `c4File`. -/
def c4Chunk : Doc :=
  { pageContent := "chunk text", metaSource := some "report.pdf", metaPage := some 1 }

/-- A conversion collaborator returning `c4Chunk` for every file. -/
def c4Convert : PFile → List Doc := fun _ => [c4Chunk]

/-- A hash collaborator (injective on the inputs exercised). -/
def c4Hash : String → String := fun s => s

/-- A cache whose entry for `c4File` is valid but unreadable. -/
def c4CorruptCache : String → CacheEntry :=
  fun p => if p = "PDFBYTES" then CacheEntry.corrupt else CacheEntry.missing

/-- A document with a known page. -/
def wDocPage5 : Doc :=
  { pageContent := "Section 5: termination requires 30 days notice.",
    metaSource := some "contract.pdf", metaPage := some 5 }

/-- A document whose `page` metadata is present but the falsy integer 0. -/
def wDocPage0 : Doc :=
  { pageContent := "preamble text", metaSource := some "contract.pdf", metaPage := some 0 }

/-- Two documents with identical content but different source filenames. -/
def wDocA : Doc := { pageContent := "same text", metaSource := some "a.pdf", metaPage := some 2 }

/-- Second of the two identical-content documents. -/
def wDocB : Doc := { pageContent := "same text", metaSource := some "b.pdf", metaPage := some 2 }

/-- A verdict dictionary with the five fields in the order the program
builds them (the shape of every verdict `VerificationAgent.check`
produces or consumes). -/
def mkVerdict (sup : Str) (uc con : List Str) (rel ad : Str) : VDict :=
  [(kSupported, PVal.pstr sup), (kUnsupportedClaims, PVal.plist uc),
   (kContradictions, PVal.plist con), (kRelevant, PVal.pstr rel),
   (kAdditionalDetails, PVal.pstr ad)]

/-- A verification verdict with every structured field non-default. -/
def c3Verdict : VDict :=
  mkVerdict "YES".toList ["claim one".toList] ["contradiction one".toList]
    "YES".toList "fine".toList

/-- Join pieces with a separator character between consecutive pieces and
after the last one (the line structure of the formatted report). -/
def joinSep (sep : Char) : List Str → Str
  | [] => []
  | l :: ls => l ++ sep :: joinSep sep ls

/-- The five lines of `format_verification_report`'s output, without their
terminating newlines. -/
def reportLines (d : VDict) : List Str :=
  ["**Supported:** ".toList ++ reportSupported d,
   if (reportUnsupportedClaims d).isEmpty then "**Unsupported Claims:** None".toList
   else "**Unsupported Claims:** ".toList ++ pyJoin ", ".toList (reportUnsupportedClaims d),
   if (reportContradictions d).isEmpty then "**Contradictions:** None".toList
   else "**Contradictions:** ".toList ++ pyJoin ", ".toList (reportContradictions d),
   "**Relevant:** ".toList ++ reportRelevant d,
   if (reportAdditionalDetails d).isEmpty then "**Additional Details:** None".toList
   else "**Additional Details:** ".toList ++ reportAdditionalDetails d]

/-!  Theorems. -/

/-- C1: the workflow controller is specified to transition back to RESEARCH
exactly when the verdict's `Supported` or `Relevant` field is `NO` as
rendered by the verification report formatter.  The code does not: the
formatter renders `**Supported:** NO`, which never contains the substring
`Supported: NO` that `_decide_next_step` tests, so for the plainly
not-supported, not-relevant verdict parsed from `c1RawResponse` the
controller transitions to END. -/
theorem c1_formatted_no_verdict_goes_to_end :
    reportSupported (parseVerificationResponse c1RawResponse) = noStr
    ∧ reportRelevant (parseVerificationResponse c1RawResponse) = noStr
    ∧ decideNextStep (verificationCheckReport c1RawResponse) = "end" := by
  refine ⟨by decide, by decide, by decide⟩

/-- C2: there is no configured maximum number of iterations in the code,
and the RESEARCH/VERIFY loop need not terminate for an always-not-supported
verification collaborator: with the constant response `c2RawResponse`
(verdict `Supported: NO`, `Relevant: NO`), whose `Contradictions` item
makes the formatted report contain the literal substring `Supported: NO`,
the controller decides `re_research` on every iteration, so the loop
completes within no bound `fuel`, for any research collaborator. -/
theorem c2_always_not_supported_loop_never_ends (draft : Nat → String) :
    ∀ fuel start, researchVerifyLoop draft (fun _ => c2RawResponse) fuel start = none := by
  intro fuel
  induction fuel with
  | zero => intro start; rfl
  | succ n ih =>
    intro start
    have h : decideNextStep (verificationCheckReport c2RawResponse) = "re_research" := by decide
    simp only [researchVerifyLoop, h]
    rw [if_neg (by decide : ¬ ("re_research" : String) = "end")]
    exact ih (start + 1)

/-- C4 (counterexample): with a valid-but-corrupt cache entry for the only
uploaded file, `process` returns no chunks at all, while the cold
(cache-empty) run returns the file's converted chunks; so a corrupt entry
is not treated as a MISS to be recomputed. -/
theorem c4_corrupt_cache_differs_from_cold :
    processFiles c4Hash c4Convert c4CorruptCache [c4File] = []
    ∧ processFiles c4Hash c4Convert (fun _ => CacheEntry.missing) [c4File] = [c4Chunk]
    ∧ processFiles c4Hash c4Convert c4CorruptCache [c4File]
        ≠ processFiles c4Hash c4Convert (fun _ => CacheEntry.missing) [c4File] := by
  refine ⟨by decide, by decide, by decide⟩

/-- C4 (amended): a corrupt or unreadable cache entry never propagates a
fatal error, but the file is skipped entirely — the per-file exception
handler `continue`s, so processing the file list equals processing it with
that file removed (no recomputation, no state change), and the output can
therefore lack that file's chunks compared with a cold run. -/
theorem c4_corrupt_entry_skips_file (h : String → String) (pf : PFile → List Doc)
    (cache : String → CacheEntry) (f : PFile) (rest : List PFile)
    (seen : List String) (acc : List Doc)
    (hc : cache (h f.content) = CacheEntry.corrupt) :
    processFilesLoop h pf (f :: rest) cache seen acc
      = processFilesLoop h pf rest cache seen acc := by
  simp only [processFilesLoop]
  rw [hc]

/-- C4 (witness): the skip equation applied to the corrupt cache instance. -/
theorem c4_corrupt_entry_skips_file_witness :
    c4CorruptCache (c4Hash c4File.content) = CacheEntry.corrupt
    ∧ processFilesLoop c4Hash c4Convert [c4File] c4CorruptCache [] []
        = processFilesLoop c4Hash c4Convert [] c4CorruptCache [] [] :=
  ⟨by decide, c4_corrupt_entry_skips_file c4Hash c4Convert c4CorruptCache c4File [] [] []
    (by decide)⟩

/-- C5: with zero retrieved chunks the relevance gate returns `NO_MATCH`
immediately and issues no classification call, whatever the question, the
`k` parameter and the classification collaborator. -/
theorem c5_empty_retrieval_no_match_no_call (question : String) (k : Nat)
    (classify : String → String → Except Unit String) :
    relevanceCheck question [] k classify = ("NO_MATCH", 0) := rfl

/-!  Helper lemmas about the Python string primitives. -/

/-- `dropWhile` over an appended non-matching singleton. -/
theorem dropWhile_append_single (c : Char) (hc : wsChar c = false) :
    ∀ xs : Str, List.dropWhile wsChar (xs ++ [c]) = List.dropWhile wsChar xs ++ [c] := by
  intro xs
  induction xs with
  | nil => simp [List.dropWhile, hc]
  | cons x xt ih => cases hx : wsChar x <;> simp [List.dropWhile_cons, hx, ih]

/-- Right strip keeps a leading non-whitespace character. -/
theorem pyStripRight_cons_keep (c : Char) (hc : wsChar c = false) (l : Str) :
    pyStripRight (c :: l) = c :: pyStripRight l := by
  unfold pyStripRight
  rw [List.reverse_cons, dropWhile_append_single c hc, List.reverse_append]
  simp

/-- Strip keeps a leading non-whitespace character. -/
theorem pyStrip_cons_keep (c : Char) (hc : wsChar c = false) (l : Str) :
    pyStrip (c :: l) = c :: pyStripRight l := by
  unfold pyStrip
  rw [List.dropWhile_cons]
  simp [hc, pyStripRight_cons_keep c hc]

/-- `pySplit` never returns the empty list. -/
theorem pySplit_ne_nil (sep : Char) : ∀ cs : Str, pySplit sep cs ≠ [] := by
  intro cs
  induction cs with
  | nil => simp [pySplit]
  | cons c rest ih =>
    simp only [pySplit]
    cases h : pySplit sep rest with
    | nil => exact absurd h ih
    | cons cur parts =>
      dsimp only
      split <;> simp

/-- Splitting a string that starts with the separator. -/
theorem pySplit_sep_cons (sep : Char) (ys : Str) :
    pySplit sep (sep :: ys) = [] :: pySplit sep ys := by
  obtain ⟨cur, parts, hh⟩ : ∃ cur parts, pySplit sep ys = cur :: parts := by
    cases hcs : pySplit sep ys with
    | nil => exact absurd hcs (pySplit_ne_nil sep ys)
    | cons a b => exact ⟨a, b, rfl⟩
  simp only [pySplit, hh]
  simp

/-- Splitting peels off a separator-free prefix. -/
theorem pySplit_append_sep (sep : Char) : ∀ xs ys : Str, sep ∉ xs →
    pySplit sep (xs ++ sep :: ys) = xs :: pySplit sep ys := by
  intro xs
  induction xs with
  | nil => intro ys _; simpa using pySplit_sep_cons sep ys
  | cons x xt ih =>
    intro ys hx
    have hxs : (x == sep) = false :=
      beq_eq_false_iff_ne.mpr (fun he => hx (by rw [he]; exact List.mem_cons_self _ _))
    have ht : sep ∉ xt := fun hm => hx (List.mem_cons_of_mem _ hm)
    simp only [List.cons_append, pySplit, List.append_eq]
    rw [ih ys ht]
    simp [hxs]

/-- Splitting the newline-joined lines recovers the lines (plus the empty
trailing piece Python's `split` produces). -/
theorem pySplit_joinSep (sep : Char) : ∀ ls : List Str, (∀ l ∈ ls, sep ∉ l) →
    pySplit sep (joinSep sep ls) = ls ++ [[]] := by
  intro ls
  induction ls with
  | nil => intro _; rfl
  | cons l lt ih =>
    intro h
    simp only [joinSep]
    rw [pySplit_append_sep sep l (joinSep sep lt) (h l (List.mem_cons_self _ _)),
      ih (fun x hx => h x (List.mem_cons_of_mem _ hx))]
    rfl

/-- A character avoiding the separator and every piece avoids the join. -/
theorem not_mem_pyJoin (ch : Char) (sep : Str) (hs : ch ∉ sep) :
    ∀ ls : List Str, (∀ x ∈ ls, ch ∉ x) → ch ∉ pyJoin sep ls := by
  intro ls
  induction ls with
  | nil => intro _; simp [pyJoin]
  | cons x xs ih =>
    intro h
    cases xs with
    | nil => simpa [pyJoin] using h x (List.mem_cons_self _ _)
    | cons y ys =>
      simp only [pyJoin, List.append_assoc, List.mem_append, not_or]
      exact ⟨h x (List.mem_cons_self _ _),
        ⟨hs, ih (fun z hz => h z (List.mem_cons_of_mem _ hz))⟩⟩

/-!  The parser ignores lines whose key starts with an asterisk. -/

/-- A line starting with `*` leaves the parse dictionary unchanged: its
`capitalize()`d key starts with `*` and matches none of the expected
field names. -/
theorem parseLine_star (d : VDict) (t : Str) : parseLine d ('*' :: t) = d := by
  have hstar : wsChar '*' = false := by decide
  have hknot : ∀ w : Str, ¬('*' :: w = kSupported ∨ '*' :: w = kUnsupportedClaimsCap
      ∨ '*' :: w = kContradictions ∨ '*' :: w = kRelevant
      ∨ '*' :: w = kAdditionalDetailsCap) := by
    intro w h
    rcases h with h | h | h | h | h
    · have h2 : some '*' = some 'S' := congrArg List.head? h
      exact absurd h2 (by decide)
    · have h2 : some '*' = some 'U' := congrArg List.head? h
      exact absurd h2 (by decide)
    · have h2 : some '*' = some 'C' := congrArg List.head? h
      exact absurd h2 (by decide)
    · have h2 : some '*' = some 'R' := congrArg List.head? h
      exact absurd h2 (by decide)
    · have h2 : some '*' = some 'A' := congrArg List.head? h
      exact absurd h2 (by decide)
  have hb : beforeSep ':' ('*' :: t) = '*' :: beforeSep ':' t := rfl
  simp only [parseLine, hb, pyStrip_cons_keep '*' hstar, pyCapitalize]
  rw [show Char.toUpper '*' = '*' from by decide]
  cases hc : pyContains ":".toList ('*' :: t)
  · simp [hc]
  · simp only [hc, if_true]
    rw [if_neg (hknot _)]

/-- A line with no colon (in particular the empty line) leaves the parse
dictionary unchanged. -/
theorem parseLine_nil (d : VDict) : parseLine d [] = d := rfl

/-- Folding the line parser over star-headed lines is the identity. -/
theorem foldl_parseLine_star : ∀ ls : List Str, (∀ l ∈ ls, l.head? = some '*') →
    ∀ acc : VDict, ls.foldl parseLine acc = acc := by
  intro ls
  induction ls with
  | nil => intro _ acc; rfl
  | cons l lt ih =>
    intro h acc
    have hl : parseLine acc l = acc := by
      cases l with
      | nil => exact parseLine_nil acc
      | cons c t =>
        have hc : c = '*' := by
          have := h (c :: t) (List.mem_cons_self _ _)
          simpa using this
        rw [hc]; exact parseLine_star acc t
    simp only [List.foldl_cons, hl]
    exact ih (fun x hx => h x (List.mem_cons_of_mem _ hx)) acc

/-- Every line the report formatter produces starts with `*`. -/
theorem reportLines_head_star (d : VDict) : ∀ l ∈ reportLines d, l.head? = some '*' := by
  intro l hl
  simp only [reportLines, List.mem_cons, List.not_mem_nil, or_false] at hl
  rcases hl with rfl | rfl | rfl | rfl | rfl
  · rfl
  · split <;> rfl
  · split <;> rfl
  · rfl
  · split <;> rfl

/-- The formatted report is its five lines joined by newlines. -/
theorem format_eq_joinSep (d : VDict) :
    formatVerificationReport d = joinSep '\n' (reportLines d) := by
  have e1 : ("**Unsupported Claims:** None\n".toList : Str)
      = "**Unsupported Claims:** None".toList ++ ['\n'] := by decide
  have e2 : ("**Contradictions:** None\n".toList : Str)
      = "**Contradictions:** None".toList ++ ['\n'] := by decide
  have e3 : ("**Additional Details:** None\n".toList : Str)
      = "**Additional Details:** None".toList ++ ['\n'] := by decide
  have en : ("\n".toList : Str) = ['\n'] := rfl
  unfold formatVerificationReport reportLines
  cases h1 : (reportUnsupportedClaims d).isEmpty <;>
    cases h2 : (reportContradictions d).isEmpty <;>
      cases h3 : (reportAdditionalDetails d).isEmpty <;>
        simp [h1, h2, h3, joinSep, e1, e2, e3, en, List.append_assoc]

/-- Parsing any formatted report with newline-free lines yields the
dictionary of pure defaults. -/
theorem parse_of_format (d : VDict) (hnl : ∀ l ∈ reportLines d, '\n' ∉ l) :
    parseVerificationResponse (formatVerificationReport d) = ensureDefaults [] := by
  unfold parseVerificationResponse
  rw [format_eq_joinSep, pySplit_joinSep '\n' (reportLines d) hnl, List.foldl_append,
    foldl_parseLine_star (reportLines d) (reportLines_head_star d) []]
  rfl

/-!  Field projections of `mkVerdict`. -/

/-- `Supported` field of a built verdict. -/
theorem mkVerdict_supported (s : Str) (u c : List Str) (r a : Str) :
    reportSupported (mkVerdict s u c r a) = s := rfl

/-- `Unsupported Claims` field of a built verdict. -/
theorem mkVerdict_unsupportedClaims (s : Str) (u c : List Str) (r a : Str) :
    reportUnsupportedClaims (mkVerdict s u c r a) = u := rfl

/-- `Contradictions` field of a built verdict. -/
theorem mkVerdict_contradictions (s : Str) (u c : List Str) (r a : Str) :
    reportContradictions (mkVerdict s u c r a) = c := rfl

/-- `Relevant` field of a built verdict. -/
theorem mkVerdict_relevant (s : Str) (u c : List Str) (r a : Str) :
    reportRelevant (mkVerdict s u c r a) = r := rfl

/-- `Additional Details` field of a built verdict. -/
theorem mkVerdict_additionalDetails (s : Str) (u c : List Str) (r a : Str) :
    reportAdditionalDetails (mkVerdict s u c r a) = a := rfl

set_option maxRecDepth 8192 in
/-- C3 (counterexample): formatting the verdict `c3Verdict` (Supported =
YES, one unsupported claim, one contradiction, Relevant = YES) and
re-parsing the text does not reproduce the four structured fields, even up
to reordering of the list fields: the markdown-bold rendering hides every
key from the line parser, so the re-parse yields the defaults. -/
theorem c3_roundtrip_fails :
    ¬ (reportSupported (parseVerificationResponse (formatVerificationReport c3Verdict))
          = reportSupported c3Verdict
       ∧ List.Perm
          (reportUnsupportedClaims (parseVerificationResponse (formatVerificationReport c3Verdict)))
          (reportUnsupportedClaims c3Verdict)
       ∧ List.Perm
          (reportContradictions (parseVerificationResponse (formatVerificationReport c3Verdict)))
          (reportContradictions c3Verdict)
       ∧ reportRelevant (parseVerificationResponse (formatVerificationReport c3Verdict))
          = reportRelevant c3Verdict) := by
  decide

/-- C3 (amended): re-parsing a formatted verdict does not round-trip;
instead, for every verdict whose field texts are newline-free, parsing the
formatted report yields the fail-closed defaults (Supported = NO, no
unsupported claims, no contradictions, Relevant = NO) — so the four
structured fields are reproduced exactly when they already are those
defaults. -/
theorem c3_parse_format_defaults (sup : Str) (uc con : List Str) (rel ad : Str)
    (hsup : '\n' ∉ sup) (huc : ∀ x ∈ uc, '\n' ∉ x) (hcon : ∀ x ∈ con, '\n' ∉ x)
    (hrel : '\n' ∉ rel) (had : '\n' ∉ ad) :
    reportSupported (parseVerificationResponse
        (formatVerificationReport (mkVerdict sup uc con rel ad))) = noStr
    ∧ reportUnsupportedClaims (parseVerificationResponse
        (formatVerificationReport (mkVerdict sup uc con rel ad))) = []
    ∧ reportContradictions (parseVerificationResponse
        (formatVerificationReport (mkVerdict sup uc con rel ad))) = []
    ∧ reportRelevant (parseVerificationResponse
        (formatVerificationReport (mkVerdict sup uc con rel ad))) = noStr := by
  have hnl : ∀ l ∈ reportLines (mkVerdict sup uc con rel ad), '\n' ∉ l := by
    intro l hl
    simp only [reportLines, mkVerdict_supported, mkVerdict_unsupportedClaims,
      mkVerdict_contradictions, mkVerdict_relevant, mkVerdict_additionalDetails,
      List.mem_cons, List.not_mem_nil, or_false] at hl
    rcases hl with rfl | rfl | rfl | rfl | rfl
    · intro hmem
      rcases List.mem_append.mp hmem with h | h
      · exact absurd h (by decide)
      · exact hsup h
    · split
      · exact by decide
      · intro hmem
        rcases List.mem_append.mp hmem with h | h
        · exact absurd h (by decide)
        · exact not_mem_pyJoin '\n' ", ".toList (by decide) uc huc h
    · split
      · exact by decide
      · intro hmem
        rcases List.mem_append.mp hmem with h | h
        · exact absurd h (by decide)
        · exact not_mem_pyJoin '\n' ", ".toList (by decide) con hcon h
    · intro hmem
      rcases List.mem_append.mp hmem with h | h
      · exact absurd h (by decide)
      · exact hrel h
    · split
      · exact by decide
      · intro hmem
        rcases List.mem_append.mp hmem with h | h
        · exact absurd h (by decide)
        · exact had h
  rw [parse_of_format _ hnl]
  exact ⟨rfl, rfl, rfl, rfl⟩

/-- C3 (witness): the amended statement at a concrete non-default verdict. -/
theorem c3_parse_format_defaults_witness :
    ('\n' ∉ ("YES".toList : Str))
    ∧ reportSupported (parseVerificationResponse (formatVerificationReport
        (mkVerdict "YES".toList ["c1".toList] [] "YES".toList []))) = noStr
    ∧ reportUnsupportedClaims (parseVerificationResponse (formatVerificationReport
        (mkVerdict "YES".toList ["c1".toList] [] "YES".toList []))) = []
    ∧ reportContradictions (parseVerificationResponse (formatVerificationReport
        (mkVerdict "YES".toList ["c1".toList] [] "YES".toList []))) = []
    ∧ reportRelevant (parseVerificationResponse (formatVerificationReport
        (mkVerdict "YES".toList ["c1".toList] [] "YES".toList []))) = noStr := by
  refine ⟨by decide, ?_⟩
  exact c3_parse_format_defaults "YES".toList ["c1".toList] [] "YES".toList []
    (by decide) (by decide) (by decide) (by decide) (by decide)

/-!  Helper lemmas for the retriever batching. -/

/-- Flattening the tail batches of the embedding loop recovers the suffix
of the document list, provided the range covers it. -/
theorem join_range_batches (docs : List Doc) : ∀ k s : Nat,
    docs.length ≤ s + embeddingBatchSize * k →
    ((List.range' s k embeddingBatchSize).map
      (fun i => (docs.drop i).take embeddingBatchSize)).flatten = docs.drop s := by
  intro k
  induction k with
  | zero =>
    intro s hs
    simp only [Nat.mul_zero, Nat.add_zero] at hs
    rw [show List.range' s 0 embeddingBatchSize = [] from rfl]
    simp [List.drop_eq_nil_of_le hs]
  | succ m ih =>
    intro s hs
    rw [show List.range' s (m + 1) embeddingBatchSize
        = s :: List.range' (s + embeddingBatchSize) m embeddingBatchSize from rfl]
    simp only [List.map_cons, List.flatten_cons]
    rw [ih (s + embeddingBatchSize) (by unfold embeddingBatchSize at *; omega)]
    have hd : (docs.drop s).drop embeddingBatchSize = docs.drop (s + embeddingBatchSize) := by
      rw [List.drop_drop, Nat.add_comm]
    rw [← hd]
    exact List.take_append_drop _ _

/-- C6: on an index-cache miss the semantic index is built from the
consecutive batches of the document list, in order: the batches
concatenate back to the whole list (so each document is embedded exactly
once, in order), and every batch holds at most `EMBEDDING_BATCH_SIZE`
documents. -/
theorem c6_batching (docs : List Doc) :
    (embeddedBatches false docs).flatten = docs
    ∧ ∀ b ∈ embeddedBatches false docs, b.length ≤ embeddingBatchSize := by
  have hmain : docs.length ≤ embeddingBatchSize
      + embeddingBatchSize * pyRangeCount embeddingBatchSize docs.length embeddingBatchSize := by
    unfold pyRangeCount embeddingBatchSize
    have hdm := Nat.div_add_mod (docs.length - 500 + 500 - 1) 500
    have hml : (docs.length - 500 + 500 - 1) % 500 < 500 := Nat.mod_lt _ (by norm_num)
    omega
  constructor
  · show (chromaBatches docs).flatten = docs
    unfold chromaBatches pyRange
    rw [List.flatten_cons, join_range_batches docs _ embeddingBatchSize hmain]
    exact List.take_append_drop _ _
  · intro b hb
    have hb2 : b ∈ chromaBatches docs := hb
    unfold chromaBatches at hb2
    rcases List.mem_cons.mp hb2 with rfl | hmem
    · exact List.length_take_le _ _
    · obtain ⟨i, _, rfl⟩ := List.mem_map.mp hmem
      exact List.length_take_le _ _

/-- C6 (witness): a two-document list is embedded as the single batch
holding both documents, within the batch bound. -/
theorem c6_batching_witness :
    [wDocA, wDocB] ∈ embeddedBatches false [wDocA, wDocB]
    ∧ [wDocA, wDocB].length ≤ embeddingBatchSize := by
  refine ⟨by decide, ?_⟩
  exact (c6_batching [wDocA, wDocB]).2 [wDocA, wDocB] (by decide)

/-!  Helper lemmas for the research step's context/sources loop. -/

/-- The enumeration loop yields one entry per document. -/
theorem buildEntries_length : ∀ (docs : List Doc) (i : Nat),
    (buildEntries docs i).length = docs.length := by
  intro docs
  induction docs with
  | nil => intro i; rfl
  | cons d rest ih => intro i; simp [buildEntries, ih]

/-- The `j`-th entry of the enumeration loop started at `i` is the entry
for the `j`-th document at position `i + j`. -/
theorem buildEntries_getElem? : ∀ (docs : List Doc) (i j : Nat),
    (buildEntries docs i)[j]? = docs[j]?.map (fun d => researchEntry d (i + j)) := by
  intro docs
  induction docs with
  | nil => intro i j; simp [buildEntries]
  | cons d rest ih =>
    intro i j
    cases j with
    | zero => simp [buildEntries]
    | succ m =>
      simp only [buildEntries, List.getElem?_cons_succ, ih (i + 1) m]
      have he : i + 1 + m = i + (m + 1) := by omega
      rw [he]

/-- The sources record built for a document at zero-based position `i`. -/
theorem researchEntry_snd (d : Doc) (i : Nat) :
    (researchEntry d i).2 =
      { index := i + 1, source := d.metaSource.getD "Unknown",
        page := if pyTruthyPage d.metaPage then d.metaPage else none } := by
  unfold researchEntry
  cases hp : pyTruthyPage d.metaPage <;> simp [hp]

/-- The context part built for a document at zero-based position `i`. -/
theorem researchEntry_fst (d : Doc) (i : Nat) :
    (researchEntry d i).1 = (if pyTruthyPage d.metaPage then
        "[Source " ++ toString (i + 1) ++ ": " ++ d.metaSource.getD "Unknown"
          ++ ", Page " ++ pageStr d.metaPage ++ "]"
      else "[Source " ++ toString (i + 1) ++ ": " ++ d.metaSource.getD "Unknown" ++ "]")
      ++ "\n" ++ d.pageContent := by
  unfold researchEntry
  cases hp : pyTruthyPage d.metaPage <;> simp [hp]

/-- The source field of a built record is the document's source metadata
(defaulted to `Unknown`), in both page branches. -/
theorem researchEntry_source (d : Doc) (i : Nat) :
    (researchEntry d i).2.source = d.metaSource.getD "Unknown" := by
  rw [researchEntry_snd]

/-- C7: the research step's sources list has exactly one entry per
document in order, the `j`-th entry's index is `j + 1`, and the `j`-th
prompt context part tags the `j`-th document's text with the source tag
numbered `j + 1` (`[Source N: source, Page page]` for a truthy page, else
`[Source N: source]`). -/
theorem c7_sources_lockstep (docs : List Doc) (j : Nat) (d : Doc) (hd : docs[j]? = some d) :
    (researchSources docs).length = docs.length
    ∧ (researchSources docs)[j]? = some
        { index := j + 1, source := d.metaSource.getD "Unknown",
          page := if pyTruthyPage d.metaPage then d.metaPage else none }
    ∧ (contextParts docs)[j]? = some
        ((if pyTruthyPage d.metaPage then
            "[Source " ++ toString (j + 1) ++ ": " ++ d.metaSource.getD "Unknown"
              ++ ", Page " ++ pageStr d.metaPage ++ "]"
          else "[Source " ++ toString (j + 1) ++ ": " ++ d.metaSource.getD "Unknown" ++ "]")
          ++ "\n" ++ d.pageContent) := by
  refine ⟨?_, ?_, ?_⟩
  · simp [researchSources, buildEntries_length]
  · simp only [researchSources, List.getElem?_map, buildEntries_getElem?, hd,
      Option.map_some, Nat.zero_add]
    simp [researchEntry_snd]
  · simp only [contextParts, List.getElem?_map, buildEntries_getElem?, hd,
      Option.map_some, Nat.zero_add]
    simp [researchEntry_fst]

/-- C7 (witness): the lockstep statement at a one-document list with a
known page. -/
theorem c7_sources_lockstep_witness :
    ([wDocPage5][0]? = some wDocPage5)
    ∧ ((researchSources [wDocPage5]).length = [wDocPage5].length
       ∧ (researchSources [wDocPage5])[0]? = some
           { index := 0 + 1, source := wDocPage5.metaSource.getD "Unknown",
             page := if pyTruthyPage wDocPage5.metaPage then wDocPage5.metaPage else none }
       ∧ (contextParts [wDocPage5])[0]? = some
           ((if pyTruthyPage wDocPage5.metaPage then
               "[Source " ++ toString (0 + 1) ++ ": " ++ wDocPage5.metaSource.getD "Unknown"
                 ++ ", Page " ++ pageStr wDocPage5.metaPage ++ "]"
             else "[Source " ++ toString (0 + 1) ++ ": "
                 ++ wDocPage5.metaSource.getD "Unknown" ++ "]")
             ++ "\n" ++ wDocPage5.pageContent)) :=
  ⟨rfl, c7_sources_lockstep [wDocPage5] 0 wDocPage5 rfl⟩

/-- C10: a present-but-falsy page (the integer 0) is treated as unknown:
the prompt's source tag omits the page, the sources entry records `None`,
and the final display's truthiness test likewise omits the page for any
record whose page is falsy. -/
theorem c10_falsy_page (docs : List Doc) (j : Nat) (d : Doc)
    (hd : docs[j]? = some d) (hp : d.metaPage = some 0) :
    (contextParts docs)[j]? = some
        ("[Source " ++ toString (j + 1) ++ ": " ++ d.metaSource.getD "Unknown" ++ "]"
          ++ "\n" ++ d.pageContent)
    ∧ (researchSources docs)[j]? = some
        { index := j + 1, source := d.metaSource.getD "Unknown", page := none }
    ∧ (∀ s : SourceRec, pyTruthyPage s.page = false →
        formatSourceItem s = "<li>" ++ s.source ++ "</li>") := by
  have ht : pyTruthyPage d.metaPage = false := by rw [hp]; rfl
  refine ⟨?_, ?_, ?_⟩
  · simp only [contextParts, List.getElem?_map, buildEntries_getElem?, hd,
      Option.map_some, Nat.zero_add]
    simp [researchEntry_fst, ht]
  · simp only [researchSources, List.getElem?_map, buildEntries_getElem?, hd,
      Option.map_some, Nat.zero_add]
    simp [researchEntry_snd, ht]
  · intro s hs
    simp [formatSourceItem, hs]

/-- C10 (witness): the falsy-page statement at a document whose page
metadata is the integer 0. -/
theorem c10_falsy_page_witness :
    ([wDocPage0][0]? = some wDocPage0)
    ∧ wDocPage0.metaPage = some 0
    ∧ ((contextParts [wDocPage0])[0]? = some
        ("[Source " ++ toString (0 + 1) ++ ": " ++ wDocPage0.metaSource.getD "Unknown" ++ "]"
          ++ "\n" ++ wDocPage0.pageContent)
       ∧ (researchSources [wDocPage0])[0]? = some
          { index := 0 + 1, source := wDocPage0.metaSource.getD "Unknown", page := none }
       ∧ (∀ s : SourceRec, pyTruthyPage s.page = false →
          formatSourceItem s = "<li>" ++ s.source ++ "</li>")) :=
  ⟨rfl, rfl, c10_falsy_page [wDocPage0] 0 wDocPage0 rfl rfl⟩

/-- C8: label parsing of the classifier output (after `strip().upper()`)
is substring-based in the order `CAN_ANSWER`, `PARTIAL`, `NO_MATCH` with
the first match winning, and an output containing none of the labels
yields `PARTIAL`. -/
theorem c8_label_first_match (question : String) (d : Doc) (ds : List Doc) (k : Nat)
    (resp : String) :
    (containsS (pyUpperS (pyStripS resp)) "CAN_ANSWER" = true →
      (relevanceCheck question (d :: ds) k (fun _ _ => Except.ok resp)).1 = "CAN_ANSWER")
    ∧ (containsS (pyUpperS (pyStripS resp)) "CAN_ANSWER" = false →
       containsS (pyUpperS (pyStripS resp)) "PARTIAL" = true →
      (relevanceCheck question (d :: ds) k (fun _ _ => Except.ok resp)).1 = "PARTIAL")
    ∧ (containsS (pyUpperS (pyStripS resp)) "CAN_ANSWER" = false →
       containsS (pyUpperS (pyStripS resp)) "PARTIAL" = false →
       containsS (pyUpperS (pyStripS resp)) "NO_MATCH" = true →
      (relevanceCheck question (d :: ds) k (fun _ _ => Except.ok resp)).1 = "NO_MATCH")
    ∧ (containsS (pyUpperS (pyStripS resp)) "CAN_ANSWER" = false →
       containsS (pyUpperS (pyStripS resp)) "PARTIAL" = false →
       containsS (pyUpperS (pyStripS resp)) "NO_MATCH" = false →
      (relevanceCheck question (d :: ds) k (fun _ _ => Except.ok resp)).1 = "PARTIAL") := by
  refine ⟨fun h1 => ?_, fun h1 h2 => ?_, fun h1 h2 h3 => ?_, fun h1 h2 h3 => ?_⟩ <;>
    simp [relevanceCheck, h1, *]

/-- C8 (witness): an output containing both `PARTIAL` and `NO_MATCH` (but
not `CAN_ANSWER`) resolves to the earlier-checked `PARTIAL`. -/
theorem c8_label_first_match_witness :
    containsS (pyUpperS (pyStripS "  PARTIAL or NO_MATCH ")) "CAN_ANSWER" = false
    ∧ containsS (pyUpperS (pyStripS "  PARTIAL or NO_MATCH ")) "PARTIAL" = true
    ∧ (relevanceCheck "q" [wDocA] 20
        (fun _ _ => Except.ok "  PARTIAL or NO_MATCH ")).1 = "PARTIAL" := by
  refine ⟨by decide, by decide, ?_⟩
  exact (c8_label_first_match "q" wDocA [] 20 "  PARTIAL or NO_MATCH ").2.1
    (by decide) (by decide)

/-!  Helper lemma for the app-side deduplication. -/

/-- The dedup loop emits pairwise-distinct `(source, page)` keys, none of
them already in `seen`. -/
theorem dedupLoop_nodup_keys : ∀ (l : List SourceRec) (seen : List (String × Option Int)),
    ((dedupSourcesLoop l seen).map (fun s => (s.source, s.page))).Nodup
    ∧ ∀ kk ∈ (dedupSourcesLoop l seen).map (fun s => (s.source, s.page)), kk ∉ seen := by
  intro l
  induction l with
  | nil => intro seen; simp [dedupSourcesLoop]
  | cons s rest ih =>
    intro seen
    by_cases hmem : (s.source, s.page) ∈ seen
    · simpa [dedupSourcesLoop, hmem] using ih seen
    · obtain ⟨ihn, ihs⟩ := ih ((s.source, s.page) :: seen)
      simp only [dedupSourcesLoop, if_neg hmem, List.map_cons, List.nodup_cons]
      refine ⟨⟨fun hk => (ihs _ hk) (List.mem_cons_self _ _), ihn⟩, ?_⟩
      intro kk hk
      rcases List.mem_cons.mp hk with rfl | hk2
      · exact hmem
      · exact fun hks => (ihs _ hk2) (List.mem_cons_of_mem _ hks)

/-- C9: the final source list is deduplicated by the `(source, page)` key
— at most one entry per pair — and deduplication is not by content: two
documents with identical content but different source filenames keep two
entries. -/
theorem c9_dedup_by_source_page :
    (∀ srcs : List SourceRec,
      ((dedupSources srcs).map (fun s => (s.source, s.page))).Nodup)
    ∧ (∀ d1 d2 : Doc, d1.pageContent = d2.pageContent →
        d1.metaSource.getD "Unknown" ≠ d2.metaSource.getD "Unknown" →
        (dedupSources (researchSources [d1, d2])).length = 2) := by
  constructor
  · intro srcs; exact (dedupLoop_nodup_keys srcs []).1
  · intro d1 d2 _ hsrc
    have hr : researchSources [d1, d2] = [(researchEntry d1 0).2, (researchEntry d2 1).2] := by
      simp [researchSources, buildEntries]
    have hne : ¬ (((researchEntry d2 1).2.source, (researchEntry d2 1).2.page)
        = ((researchEntry d1 0).2.source, (researchEntry d1 0).2.page)) := by
      intro he
      apply hsrc
      have h1 := congrArg Prod.fst he
      simp only [researchEntry_source] at h1
      exact h1.symm
    rw [hr]
    simp [dedupSources, dedupSourcesLoop, hne]

/-- C9 (witness): the two identical-content documents `wDocA`, `wDocB`
from different files keep two entries after deduplication. -/
theorem c9_dedup_by_source_page_witness :
    wDocA.pageContent = wDocB.pageContent
    ∧ wDocA.metaSource.getD "Unknown" ≠ wDocB.metaSource.getD "Unknown"
    ∧ (dedupSources (researchSources [wDocA, wDocB])).length = 2 := by
  refine ⟨rfl, by decide, ?_⟩
  exact c9_dedup_by_source_page.2 wDocA wDocB rfl (by decide)
